import Mathlib

/-!
Verification of the serviette rebuild-coordination core.

This file gives a shallow embedding of the core of the serviette
development server (src/index.js and the unnamed variant): the
`compare` / `equalsState` pure functions, the `LockQueue` asynchronous
FIFO lock, the `gatherState` concurrent directory walk, the `rebuild`
build-process runner, and the `rebuildIfNecessary` coordinator.

Conventions of the embedding:
* A JavaScript string compared by `<` is a sequence of code units
  compared lexicographically; paths are therefore modelled as
  `List Char` with the structural lexicographic order `pathLt` (total
  and locale-independent, exactly as the JavaScript operator).
  Modification times (`stat.mtimeMs`) are `Int`: only equality of
  mtimes is ever used by the code, so the numeric representation is
  irrelevant to every property proved here.  Error messages are never
  inspected and stay `String`.
* Asynchronous, callback-driven code is embedded as an explicit
  small-step machine: the state records the JavaScript closure state
  (counters, accumulated results, outstanding callbacks) and each step
  applies one callback invocation, chosen by an adversarial scheduler
  (a list of events).  `none` marks an event that no outstanding
  operation could have produced.
* JavaScript truthiness is made explicit wherever the source branches
  on it (`if (err)`, `if (!command)`, `if (code || signal)`): `null`
  maps to `Option.none`, and the empty string / zero are the falsy
  inhabitants of their types.
-/

namespace Serviette

/-- Shorthand turning a Lean string literal into the code-unit sequence
that models the corresponding JavaScript string. -/
def str (s : String) : List Char := s.data

/-- The JavaScript `<` operator on strings: lexicographic comparison of
code-unit sequences (shorter strict prefixes compare smaller). -/
def pathLt : List Char → List Char → Bool
  | _, [] => false
  | [], _ :: _ => true
  | a :: as, b :: bs =>
    if a < b then true
    else if b < a then false
    else pathLt as bs

/-- One filesystem node recorded by the walk: `{ path: path, mtime: stat.mtimeMs }`. -/
structure Entry where
  path : List Char
  mtime : Int
deriving DecidableEq

/-- The source's generic `compare(a, b)` (three-way via `<`), instantiated at the
only element type it is applied to in the core, path strings. -/
def compare (a b : List Char) : Int :=
  if pathLt a b then -1
  else if pathLt b a then 1
  else 0

/-- The loop of `equalsState`: iterate over matching positions, returning false at
the first position whose `path` or `mtime` differs.  The JavaScript loop runs over
indices `0 .. new_state.length - 1`; it is only ever reached after the equal-length
guard of `equalsState`, where it coincides with this structural recursion. -/
def eqLoop : List Entry → List Entry → Bool
  | a :: as, b :: bs => (a.path == b.path && a.mtime == b.mtime) && eqLoop as bs
  | _, _ => true

/-- The source's `equalsState(new_state, previous_state)`.  The two null-guards of
the source are vacuous here: a `DiskState` handed to the comparator is always a
materialized array (arrays are truthy in JavaScript), so they are not modelled. -/
def equalsState (new_state previous_state : List Entry) : Bool :=
  if new_state.length != previous_state.length then false
  else eqLoop new_state previous_state

theorem eqLoop_iff : ∀ (a b : List Entry), a.length = b.length →
    (eqLoop a b = true ↔
      ∀ i (h1 : i < a.length) (h2 : i < b.length),
        (a.get ⟨i, h1⟩).path = (b.get ⟨i, h2⟩).path ∧
        (a.get ⟨i, h1⟩).mtime = (b.get ⟨i, h2⟩).mtime)
  | [], [], _ => by simp [eqLoop]
  | [], _ :: _, h => by simp at h
  | _ :: _, [], h => by simp at h
  | x :: xs, y :: ys, h => by
    have hlen : xs.length = ys.length := by simpa using h
    have ih := eqLoop_iff xs ys hlen
    constructor
    · intro hl i h1 h2
      have hl' : (x.path = y.path ∧ x.mtime = y.mtime) ∧ eqLoop xs ys = true := by
        simpa [eqLoop, Bool.and_eq_true] using hl
      match i with
      | 0 => simpa [List.get] using hl'.1
      | i + 1 =>
        have h1' : i < xs.length := by simpa using h1
        have h2' : i < ys.length := by simpa using h2
        simpa [List.get] using ih.mp hl'.2 i h1' h2'
    · intro hp
      have h0 := hp 0 (by simp) (by simp)
      simp [List.get] at h0
      have hrest : eqLoop xs ys = true := by
        apply ih.mpr
        intro i h1 h2
        have := hp (i + 1) (by simpa using Nat.succ_lt_succ h1)
          (by simpa using Nat.succ_lt_succ h2)
        simpa [List.get] using this
      simp [eqLoop, Bool.and_eq_true, h0.1, h0.2, hrest]

theorem beqEqComm {α : Type} [BEq α] [LawfulBEq α] (x y : α) : (x == y) = (y == x) := by
  rw [Bool.eq_iff_iff]
  simp only [beq_iff_eq]
  exact eq_comm

theorem eqLoop_symm : ∀ (a b : List Entry), eqLoop a b = eqLoop b a
  | [], [] => rfl
  | [], _ :: _ => rfl
  | _ :: _, [] => rfl
  | x :: xs, y :: ys => by
    simp only [eqLoop, eqLoop_symm xs ys]
    rw [beqEqComm x.path y.path, beqEqComm x.mtime y.mtime]

theorem eqLoop_refl : ∀ (a : List Entry), eqLoop a a = true
  | [] => rfl
  | _ :: xs => by simp [eqLoop, eqLoop_refl xs]

/-- C5: for fully materialized disk states, `equalsState a b` is true exactly when
the lengths agree and every matching position has equal `path` and equal `mtime`;
in particular it is false whenever the lengths differ. -/
theorem equalsState_characterization (a b : List Entry) :
    (equalsState a b = true ↔
      (a.length = b.length ∧
        ∀ i (h1 : i < a.length) (h2 : i < b.length),
          (a.get ⟨i, h1⟩).path = (b.get ⟨i, h2⟩).path ∧
          (a.get ⟨i, h1⟩).mtime = (b.get ⟨i, h2⟩).mtime)) ∧
    (a.length ≠ b.length → equalsState a b = false) := by
  constructor
  · by_cases hlen : a.length = b.length
    · rw [equalsState, if_neg (by simpa using hlen)]
      rw [eqLoop_iff a b hlen]
      exact ⟨fun h => ⟨hlen, h⟩, fun h => h.2⟩
    · rw [equalsState, if_pos (by simpa using hlen)]
      simp [hlen]
  · intro hlen
    rw [equalsState, if_pos (by simpa using hlen)]

/-- C5 witness: a concrete evaluation through `equalsState_characterization`. -/
theorem equalsState_characterization_witness :
    equalsState [Entry.mk (str "a") 1] [] = false :=
  (equalsState_characterization [Entry.mk (str "a") 1] []).2 (by decide)

/-- C8: `equalsState` is symmetric and reflexive. -/
theorem equalsState_symm_refl (a b : List Entry) :
    equalsState a b = equalsState b a ∧ equalsState a a = true := by
  constructor
  · rw [equalsState, equalsState, eqLoop_symm a b]
    have : (a.length != b.length) = (b.length != a.length) := by
      simp only [bne]
      rw [beqEqComm]
    rw [this]
  · rw [equalsState, eqLoop_refl a]
    simp

theorem pathLt_asymm : ∀ (a b : List Char), pathLt a b = true → pathLt b a = false
  | _, [], h => by simp [pathLt] at h
  | [], _ :: _, _ => by simp [pathLt]
  | a :: as, b :: bs, h => by
    simp only [pathLt] at h ⊢
    by_cases h1 : a < b
    · rw [if_neg (lt_asymm h1), if_pos h1]
    · by_cases h2 : b < a
      · rw [if_neg h1, if_pos h2] at h
        exact absurd h (by simp)
      · rw [if_neg h1, if_neg h2] at h
        rw [if_neg h2, if_neg h1]
        exact pathLt_asymm as bs h

theorem pathLt_conn : ∀ (a b : List Char),
    pathLt a b = false → pathLt b a = false → a = b
  | [], [], _, _ => rfl
  | [], _ :: _, h1, _ => by simp [pathLt] at h1
  | _ :: _, [], _, h2 => by simp [pathLt] at h2
  | a :: as, b :: bs, h1, h2 => by
    simp only [pathLt] at h1 h2
    by_cases hab : a < b
    · rw [if_pos hab] at h1
      exact absurd h1 (by simp)
    · by_cases hba : b < a
      · rw [if_pos hba] at h2
        exact absurd h2 (by simp)
      · rw [if_neg hab, if_neg hba] at h1
        rw [if_neg hba, if_neg hab] at h2
        have hc : a = b := le_antisymm (not_lt.mp hba) (not_lt.mp hab)
        rw [hc, pathLt_conn as bs h1 h2]

theorem pathLt_trans : ∀ (a b c : List Char),
    pathLt a b = true → pathLt b c = true → pathLt a c = true
  | _, [], _, h1, _ => by simp [pathLt] at h1
  | _, _ :: _, [], _, h2 => by simp [pathLt] at h2
  | [], _ :: _, _ :: _, _, _ => by simp [pathLt]
  | a :: as, b :: bs, c :: cs, h1, h2 => by
    simp only [pathLt] at h1 h2 ⊢
    by_cases hab : a < b
    · by_cases hbc : b < c
      · rw [if_pos (lt_trans hab hbc)]
      · by_cases hcb : c < b
        · rw [if_neg hbc, if_pos hcb] at h2
          exact absurd h2 (by simp)
        · have hbceq : b = c := le_antisymm (not_lt.mp hcb) (not_lt.mp hbc)
          rw [if_pos (hbceq ▸ hab)]
    · by_cases hba : b < a
      · rw [if_neg hab, if_pos hba] at h1
        exact absurd h1 (by simp)
      · have habeq : a = b := le_antisymm (not_lt.mp hba) (not_lt.mp hab)
        rw [if_neg hab, if_neg hba] at h1
        subst habeq
        by_cases hac : a < c
        · rw [if_pos hac]
        · by_cases hca : c < a
          · rw [if_neg hac, if_pos hca] at h2
            exact absurd h2 (by simp)
          · rw [if_neg hac, if_neg hca] at h2 ⊢
            exact pathLt_trans as bs cs h1 h2

/-- The sort order used by `done`'s `results.sort((a, b) => compare(a.path, b.path))`:
entry `a` may precede entry `b` when the comparator is non-positive. -/
def entryLe (a b : Entry) : Prop := compare a.path b.path ≤ 0

instance : DecidableRel entryLe := fun _ _ => Int.decLe _ _

theorem compare_le_zero (a b : List Char) :
    compare a b ≤ 0 ↔ pathLt b a = false := by
  unfold compare
  by_cases hab : pathLt a b = true
  · rw [if_pos hab]
    exact iff_of_true (by norm_num) (pathLt_asymm a b hab)
  · rw [if_neg hab]
    by_cases hba : pathLt b a = true
    · rw [if_pos hba]
      exact iff_of_false (by norm_num) (by simp [hba])
    · rw [if_neg hba]
      exact iff_of_true le_rfl (Bool.eq_false_iff.mpr hba)

theorem entryLe_total (a b : Entry) : entryLe a b ∨ entryLe b a := by
  unfold entryLe
  rw [compare_le_zero, compare_le_zero]
  by_cases h : pathLt b.path a.path = true
  · exact Or.inr (pathLt_asymm _ _ h)
  · exact Or.inl (Bool.eq_false_iff.mpr h)

theorem entryLe_trans (a b c : Entry) :
    entryLe a b → entryLe b c → entryLe a c := by
  unfold entryLe
  rw [compare_le_zero, compare_le_zero, compare_le_zero]
  intro hba hcb
  by_cases hca : pathLt c.path a.path = true
  · by_cases hab : pathLt a.path b.path = true
    · have := pathLt_trans c.path a.path b.path hca hab
      rw [this] at hcb
      exact absurd hcb (by simp)
    · have heq : a.path = b.path :=
        pathLt_conn a.path b.path (Bool.eq_false_iff.mpr hab) hba
      rw [heq] at hca
      rw [hca] at hcb
      exact absurd hcb (by simp)
  · exact Bool.eq_false_iff.mpr hca

theorem entryLe_antisymm (a b : Entry) :
    entryLe a b → entryLe b a → a.path = b.path := by
  unfold entryLe
  rw [compare_le_zero, compare_le_zero]
  exact fun hba hab => pathLt_conn a.path b.path hab hba

instance : IsTotal Entry entryLe := ⟨entryLe_total⟩

instance : IsTrans Entry entryLe := ⟨entryLe_trans⟩

/-- the in-place `results.sort((a, b) => compare(a.path, b.path))` of `done`:
a sort consistent with the source's comparator (`Array.prototype.sort` is
implementation-defined; any comparator-consistent sort models it). -/
def sortEntries (l : List Entry) : List Entry :=
  l.insertionSort entryLe

theorem sortEntries_sorted (l : List Entry) : (sortEntries l).Sorted entryLe :=
  List.sorted_insertionSort entryLe l

/-- One asynchronous filesystem completion delivered to `gatherState`'s walk.
`statErr`/`statOk` are the two shapes of an `fs.stat` callback, and
`readdirErr`/`readdirOk` the two shapes of an `fs.readdir` callback. -/
inductive FsEvent where
  | statErr (p : List Char) (e : String)
  | statOk (p : List Char) (mtime : Int) (isDir : Bool)
  | readdirErr (p : List Char) (e : String)
  | readdirOk (p : List Char) (files : List (List Char))
deriving DecidableEq

/-- The closure state of one `gatherState` call: the `expected` counter, the
`results` accumulator, the outstanding `fs.stat` / `fs.readdir` callbacks, and
the record of every invocation of the completion `callback` so far (error value
and the `results` value passed with it). -/
structure GSState where
  expected : Int
  results : List Entry
  pendingStat : List (List Char)
  pendingReaddir : List (List Char)
  fired : List (Option String × List Entry)
deriving DecidableEq

/-- Inner `done()`: decrement `expected`; on reaching zero, sort `results` in
place by path and invoke the callback with `(null, results)`. -/
def gsDone (s : GSState) : GSState :=
  if s.expected - 1 = 0 then
    { s with expected := s.expected - 1,
             results := sortEntries s.results,
             fired := s.fired ++ [(none, sortEntries s.results)] }
  else
    { s with expected := s.expected - 1 }

/-- Inner `error(err)`: set `expected = -1` and invoke the callback with
`(err, results)` (the partial, unsorted accumulator). -/
def gsError (s : GSState) (err : String) : GSState :=
  { s with expected := -1, fired := s.fired ++ [(some err, s.results)] }

/-- `path.join(path, f)` for a child `f` of directory `path`. -/
def joinPath (p f : List Char) : List Char := p ++ '/' :: f

/-- One scheduler step of `gatherState`: deliver one outstanding filesystem
callback, mirroring the body of `walk`.  A stat error runs `error`; a stat
success pushes `{path, mtime}` onto `results` and either issues a `readdir`
(directories) or runs `done` (files); a readdir error runs `error`; a readdir
success runs `walk` on each child — `begin()` raises `expected` by the number
of children and each child's stat becomes outstanding — and then runs `done`.
Returns `none` for an event no outstanding operation could deliver. -/
def gatherStep (s : GSState) : FsEvent → Option GSState
  | .statErr p err =>
    if p ∈ s.pendingStat then
      some (gsError { s with pendingStat := s.pendingStat.erase p } err)
    else none
  | .statOk p mtime isDir =>
    if p ∈ s.pendingStat then
      some (if isDir then
              { s with pendingStat := s.pendingStat.erase p,
                       results := s.results ++ [Entry.mk p mtime],
                       pendingReaddir := s.pendingReaddir ++ [p] }
            else
              gsDone { s with pendingStat := s.pendingStat.erase p,
                              results := s.results ++ [Entry.mk p mtime] })
    else none
  | .readdirErr p err =>
    if p ∈ s.pendingReaddir then
      some (gsError { s with pendingReaddir := s.pendingReaddir.erase p } err)
    else none
  | .readdirOk p files =>
    if p ∈ s.pendingReaddir then
      some (gsDone { s with pendingReaddir := s.pendingReaddir.erase p,
                            expected := s.expected + files.length,
                            pendingStat := s.pendingStat ++ files.map (joinPath p) })
    else none

/-- State right after `gatherState` has run `walk(root)` synchronously:
`begin()` has made `expected` 1 and the root's stat is outstanding. -/
def gsInit (root : List Char) : GSState :=
  { expected := 1, results := [], pendingStat := [root], pendingReaddir := [], fired := [] }

/-- Run a whole schedule of filesystem completions. -/
def runGather : GSState → List FsEvent → Option GSState
  | s, [] => some s
  | s, e :: es =>
    match gatherStep s e with
    | some s2 => runGather s2 es
    | none => none

/-- C3: the exactly-once completion property of `gatherState` FAILS on the code.
With a root directory holding two children whose stats both fail (for example
both files vanish between the parent's `readdir` and their `stat`), the
completion callback fires twice: `error` latches `expected = -1` but invokes the
callback unconditionally, so a second in-flight failure reports again. -/
theorem gatherState_double_completion :
    (runGather (gsInit (str "."))
        [FsEvent.statOk (str ".") 0 true,
         FsEvent.readdirOk (str ".") [str "a", str "b"],
         FsEvent.statErr (str "./a") "ENOENT",
         FsEvent.statErr (str "./b") "ENOENT"]).map
      (fun s => s.fired.length) = some 2 := by
  decide

theorem gatherStep_fired_sorted (s s2 : GSState) (e : FsEvent)
    (h : gatherStep s e = some s2)
    (hs : ∀ l, ((none : Option String), l) ∈ s.fired → l.Sorted entryLe) :
    ∀ l, ((none : Option String), l) ∈ s2.fired → l.Sorted entryLe := by
  have hdone : ∀ t : GSState,
      (∀ l, ((none : Option String), l) ∈ t.fired → l.Sorted entryLe) →
      ∀ l, ((none : Option String), l) ∈ (gsDone t).fired → l.Sorted entryLe := by
    intro t ht l hl
    unfold gsDone at hl
    by_cases hz : t.expected - 1 = 0
    · rw [if_pos hz] at hl
      simp only [List.mem_append, List.mem_singleton] at hl
      rcases hl with hl | hl
      · exact ht l hl
      · have : l = sortEntries t.results := by
          simpa using congrArg Prod.snd hl
        rw [this]
        exact sortEntries_sorted t.results
    · rw [if_neg hz] at hl
      exact ht l hl
  have herr : ∀ (t : GSState) (err : String),
      (∀ l, ((none : Option String), l) ∈ t.fired → l.Sorted entryLe) →
      ∀ l, ((none : Option String), l) ∈ (gsError t err).fired → l.Sorted entryLe := by
    intro t err ht l hl
    unfold gsError at hl
    simp only [List.mem_append, List.mem_singleton] at hl
    rcases hl with hl | hl
    · exact ht l hl
    · exact absurd (congrArg Prod.fst hl) (by simp)
  cases e with
  | statErr p err =>
    rw [gatherStep] at h
    split at h
    · cases h
      exact herr _ err hs
    · cases h
  | statOk p mtime isDir =>
    rw [gatherStep] at h
    split at h
    · cases h
      cases isDir with
      | true => simpa using hs
      | false => exact hdone _ hs
    · cases h
  | readdirErr p err =>
    rw [gatherStep] at h
    split at h
    · cases h
      exact herr _ err hs
    · cases h
  | readdirOk p files =>
    rw [gatherStep] at h
    split at h
    · cases h
      exact hdone _ hs
    · cases h

theorem runGather_fired_sorted : ∀ (evs : List FsEvent) (s s2 : GSState),
    runGather s evs = some s2 →
    (∀ l, ((none : Option String), l) ∈ s.fired → l.Sorted entryLe) →
    (∀ l, ((none : Option String), l) ∈ s2.fired → l.Sorted entryLe)
  | [], s, s2, h, hs => by
    rw [runGather] at h
    cases h
    exact hs
  | e :: es, s, s2, h, hs => by
    rw [runGather] at h
    split at h
    · next s3 hstep =>
      exact runGather_fired_sorted es s3 s2 h (gatherStep_fired_sorted s s3 e hstep hs)
    · cases h

/-- C6: every disk state emitted by a successful completion of a scan is sorted
ascending by path — the sort is established by `done` at the end of the scan,
whatever order the concurrent walk accumulated entries in — and the path
ordering used is total, transitive and antisymmetric (a linear,
locale-independent order), so the sorted form handed to the comparator and the
cache is well-defined. -/
theorem gatherState_success_sorted (root : List Char) (evs : List FsEvent) (s : GSState)
    (h : runGather (gsInit root) evs = some s) :
    (∀ l, ((none : Option String), l) ∈ s.fired → l.Sorted entryLe) ∧
    (∀ a b : Entry, entryLe a b ∨ entryLe b a) ∧
    (∀ a b c : Entry, entryLe a b → entryLe b c → entryLe a c) ∧
    (∀ a b : Entry, entryLe a b → entryLe b a → a.path = b.path) := by
  refine ⟨?_, entryLe_total, entryLe_trans, entryLe_antisymm⟩
  exact runGather_fired_sorted evs (gsInit root) s h (by simp [gsInit])

/-- C6 witness: a concrete scan of a directory whose children are discovered in
reverse order still emits a path-sorted disk state. -/
theorem gatherState_success_sorted_witness :
    List.Sorted entryLe
      [Entry.mk (str "r") 5, Entry.mk (str "r/a") 2, Entry.mk (str "r/b") 1] :=
  (gatherState_success_sorted (str "r")
      [FsEvent.statOk (str "r") 5 true,
       FsEvent.readdirOk (str "r") [str "b", str "a"],
       FsEvent.statOk (str "r/b") 1 false,
       FsEvent.statOk (str "r/a") 2 false]
      (GSState.mk 0
        [Entry.mk (str "r") 5, Entry.mk (str "r/a") 2, Entry.mk (str "r/b") 1]
        [] []
        [(none, [Entry.mk (str "r") 5, Entry.mk (str "r/a") 2, Entry.mk (str "r/b") 1])])
      (by decide)).1
    [Entry.mk (str "r") 5, Entry.mk (str "r/a") 2, Entry.mk (str "r/b") 1]
    (by decide)


/-- What the `LockQueue` machine reacts to: a client call `lock(cb_i)` (the
callbacks are identified by arrival number), the `process.nextTick` delivery of
a scheduled `_dispatch`, and the running operation calling its `unlock`. -/
inductive LQEvent where
  | lockReq (i : Nat)
  | tick
  | unlock
deriving DecidableEq

/-- The observable state of one `LockQueue`: the `lock_queue` array of the
source (the running operation, if any, is still at index 0), whether a
`_dispatch` is currently scheduled on the tick queue, whether the head
operation has been started and not yet released, plus three histories used to
state ordering properties: arrival order (`locked`), dispatch order
(`started`), and release order (`completed`). -/
structure LQState where
  lock_queue : List Nat
  tickPending : Bool
  running : Bool
  locked : List Nat
  started : List Nat
  completed : List Nat
deriving DecidableEq

/-- One step of the lock: `lock(cb)` pushes and schedules `_dispatch` exactly
when the queue length became 1; a tick runs `_dispatch`, which starts the head
operation (handing it `unlock`); `unlock` shifts the queue and schedules
`_dispatch` again exactly when the queue is still nonempty.  `none` marks an
event that cannot occur (a tick without a scheduled dispatch, an unlock without
a running operation). -/
def lqStep (s : LQState) : LQEvent → Option LQState
  | .lockReq i =>
    some { s with lock_queue := s.lock_queue ++ [i],
                  tickPending := s.tickPending || s.lock_queue.isEmpty,
                  locked := s.locked ++ [i] }
  | .tick =>
    match s.lock_queue with
    | [] => none
    | c :: _ =>
      if s.tickPending then
        some { s with tickPending := false, running := true,
                      started := s.started ++ [c] }
      else none
  | .unlock =>
    if s.running then
      some { s with lock_queue := s.lock_queue.tail,
                    running := false,
                    tickPending := !s.lock_queue.tail.isEmpty,
                    completed := s.completed ++ s.lock_queue.take 1 }
    else none

/-- A freshly constructed `LockQueue`. -/
def lqInit : LQState :=
  { lock_queue := [], tickPending := false, running := false,
    locked := [], started := [], completed := [] }

/-- Run a whole schedule of lock events. -/
def runLock : LQState → List LQEvent → Option LQState
  | s, [] => some s
  | s, e :: es =>
    match lqStep s e with
    | some s2 => runLock s2 es
    | none => none

/-- The inductive invariant of the lock machine. -/
def LQInv (s : LQState) : Prop :=
  s.locked = s.completed ++ s.lock_queue ∧
  s.started = s.completed ++ (if s.running then s.lock_queue.take 1 else []) ∧
  (s.running = true → s.lock_queue ≠ []) ∧
  (s.tickPending = true → s.running = false ∧ s.lock_queue ≠ [])

theorem lqStep_inv (s s2 : LQState) (e : LQEvent)
    (h : lqStep s e = some s2) (hs : LQInv s) : LQInv s2 := by
  obtain ⟨h1, h2, h3, h4⟩ := hs
  cases e with
  | lockReq i =>
    rw [lqStep] at h
    cases h
    refine ⟨by simp [h1], ?_, by simp, ?_⟩
    · by_cases hr : s.running = true
      · have hq : s.lock_queue ≠ [] := h3 hr
        cases hq2 : s.lock_queue with
        | nil => exact absurd hq2 hq
        | cons c rest =>
          simp only [hr, if_pos] at h2
          rw [hq2] at h2
          simp [hr, hq2, h2]
      · have hr' : s.running = false := by
          cases hrv : s.running
          · rfl
          · exact absurd hrv hr
        simp only [hr', Bool.false_eq_true, if_neg, if_false] at h2
        simp [hr', h2]
    · intro htp
      rcases Bool.or_eq_true_iff.mp htp with htp | htp
      · exact ⟨(h4 htp).1, by simp⟩
      · have hq : s.lock_queue = [] := by simpa using htp
        refine ⟨?_, by simp⟩
        cases hrv : s.running
        · rfl
        · exact absurd (h3 hrv) (by simp [hq])
  | tick =>
    rw [lqStep] at h
    split at h
    · cases h
    · next c rest hq =>
      split at h
      · next htp =>
        cases h
        have hr : s.running = false := (h4 htp).1
        have h2' : s.started = s.completed := by simpa [hr] using h2
        refine ⟨h1, ?_, by simp [hq], by simp⟩
        rw [hq]
        simp [h2']
      · cases h
  | unlock =>
    rw [lqStep] at h
    split at h
    · next hr =>
      cases h
      obtain ⟨c, rest, hq2⟩ : ∃ c rest, s.lock_queue = c :: rest := by
        cases hq : s.lock_queue with
        | nil => exact absurd hq (h3 hr)
        | cons c rest => exact ⟨c, rest, rfl⟩
      have h2' : s.started = s.completed ++ s.lock_queue.take 1 := by
        simpa [hr] using h2
      refine ⟨?_, ?_, by simp, ?_⟩
      · rw [h1, hq2]
        simp
      · rw [h2', hq2]
        simp
      · intro htp
        refine ⟨rfl, fun hnil => ?_⟩
        have htp' : (!s.lock_queue.tail.isEmpty) = true := htp
        have hnil' : s.lock_queue.tail = [] := hnil
        rw [hnil'] at htp'
        simp at htp'
    · cases h

theorem runLock_inv : ∀ (evs : List LQEvent) (s s2 : LQState),
    runLock s evs = some s2 → LQInv s → LQInv s2
  | [], s, s2, h, hs => by
    rw [runLock] at h
    cases h
    exact hs
  | e :: es, s, s2, h, hs => by
    rw [runLock] at h
    split at h
    · next s3 hstep => exact runLock_inv es s3 s2 h (lqStep_inv s s3 e hstep hs)
    · cases h

/-- C7: in every reachable state of the `LockQueue` machine, (i) the operations
started so far are exactly an initial segment of the operations in arrival
order — strict FIFO dispatch; (ii) completions follow start order and at most
one started operation is uncompleted — mutual exclusion, at most one operation
runs at a time; (iii) a `lock` call by itself never starts an operation — every
dispatch happens on a later scheduling tick, never reentrantly in the caller's
stack frame. -/
theorem lockQueue_fifo_mutex (evs : List LQEvent) (s : LQState)
    (h : runLock lqInit evs = some s) :
    (∃ rest, s.locked = s.started ++ rest) ∧
    (∃ rest, s.started = s.completed ++ rest) ∧
    s.completed.length ≤ s.started.length ∧
    s.started.length ≤ s.completed.length + 1 ∧
    (∀ i s2, lqStep s (LQEvent.lockReq i) = some s2 → s2.started = s.started) := by
  have hinv : LQInv s := runLock_inv evs lqInit s h (by simp [lqInit, LQInv])
  obtain ⟨h1, h2, h3, _⟩ := hinv
  refine ⟨?_, ⟨_, h2⟩, by simp [h2], ?_, ?_⟩
  · by_cases hr : s.running = true
    · cases hq2 : s.lock_queue with
      | nil => exact absurd hq2 (h3 hr)
      | cons c rest =>
        refine ⟨rest, ?_⟩
        rw [h1, h2, hq2]
        simp [hr]
    · have hr' : s.running = false := by
        cases hrv : s.running
        · rfl
        · exact absurd hrv hr
      refine ⟨s.lock_queue, ?_⟩
      rw [h1, h2, hr']
      simp
  · rw [h2]
    by_cases hr : s.running = true
    · simp only [hr, if_pos]
      have := List.length_take_le 1 s.lock_queue
      simp only [List.length_append]
      omega
    · have hr' : s.running = false := by
        cases hrv : s.running
        · rfl
        · exact absurd hrv hr
      simp [hr']
  · intro i s2 h2step
    rw [lqStep] at h2step
    cases h2step
    rfl

/-- C7 witness: after two lock requests and two full dispatch/release rounds,
the start history equals the completion history. -/
theorem lockQueue_fifo_mutex_witness :
    ∃ rest, ([0, 1] : List Nat) = [0, 1] ++ rest :=
  (lockQueue_fifo_mutex
      [LQEvent.lockReq 0, LQEvent.lockReq 1, LQEvent.tick, LQEvent.unlock,
       LQEvent.tick, LQEvent.unlock]
      (LQState.mk [] false false [0, 1] [0, 1] [0, 1])
      (by decide)).2.1


/-- Truthiness of the configured build command: `if (!command)` takes the early
`callback(null)` return for `null` and for the empty string. -/
def cmdTruthy : Option String → Bool
  | none => false
  | some s => s != ""

/-- Truthiness of the exit code in `if (code || signal)`: `null` and `0` are falsy. -/
def codeTruthy : Option Int → Bool
  | none => false
  | some c => c != 0

/-- Truthiness of the termination signal in `if (code || signal)`: `null` and the
empty string are falsy (Node delivers either `null` or a nonempty signal name). -/
def sigTruthy : Option String → Bool
  | none => false
  | some s => s != ""

/-- How the spawned child behaves, as observed by `rebuild`'s two one-shot
handlers: either the `error` event fires first (with the output captured so
far), or the `exit` event fires first with an exit code, a signal, and the
combined stdout/stderr `output` accumulated in arrival order. -/
inductive ProcBehavior where
  | errorFirst (e : String) (capturedOutput : String)
  | exited (code : Option Int) (signal : Option String) (output : String)
deriving DecidableEq

/-- The value `rebuild` passes to its callback when it fails: the error object
of the `error` event, or — for a failing exit — the combined output string. -/
inductive BuildErr where
  | spawnErr (e : String)
  | output (s : String)
deriving DecidableEq

/-- `Rebuilder.rebuild(callback)`: no command means immediate `callback(null)`
with no process spawned; otherwise the outcome of the spawned child decides the
callback argument (the `signaled` flag makes the first of `error`/`exit` win).
Returns the callback argument and whether a process was spawned. -/
def rebuild (command : Option String) (proc : ProcBehavior) : Option BuildErr × Bool :=
  if cmdTruthy command = false then (none, false)
  else
    match proc with
    | .errorFirst e _ => (some (.spawnErr e), true)
    | .exited code signal output =>
      if codeTruthy code || sigTruthy signal then (some (.output output), true)
      else (none, true)

/-- Truthiness of `rebuild`'s callback argument, as tested by the coordinator's
`if (err)`: an error object is truthy, an output string only when nonempty. -/
def buildErrTruthy : Option BuildErr → Bool
  | none => false
  | some (.spawnErr _) => true
  | some (.output s) => s != ""

/-- An error value handed to `rebuildIfNecessary`'s `callback`: a filesystem
error from a scan, or a build failure value. -/
inductive CbErr where
  | fs (e : String)
  | build (b : BuildErr)
deriving DecidableEq

/-- One observable action of a `rebuildIfNecessary` invocation once the lock
callback has run: spawning the build child, assigning `this.disk_state`,
calling `unlock()`, and invoking the completion `callback`. -/
inductive REvent where
  | spawn
  | setState (s : List Entry)
  | unlock
  | callback (err : Option CbErr)
deriving DecidableEq

/-- `Rebuilder.rebuildIfNecessary(callback)`, as the event trace it performs
after acquiring the lock, given the one outcome each asynchronous collaborator
reports: the scan's `(err, results)`, the build child's behavior, and the
post-build rescan's `(err, results)`.  (That `gatherState` delivers exactly one
outcome is its own contract, examined separately — see C3.)  Mirrors the
nesting of the source: a truthy scan error or an unchanged disk state releases
and reports immediately; a truthy build error releases and reports it;
otherwise the rescan result replaces `disk_state` only when the rescan
succeeded, and the lock is released and the rescan error reported either way. -/
def rebuildIfNecessary (disk_state : List Entry)
    (scanErr : Option String) (scanResults : List Entry)
    (command : Option String) (proc : ProcBehavior)
    (rescanErr : Option String) (rescanResults : List Entry) : List REvent :=
  if scanErr.isSome || equalsState scanResults disk_state then
    [.unlock, .callback (scanErr.map CbErr.fs)]
  else
    let r := rebuild command proc
    let pre : List REvent := if r.2 then [.spawn] else []
    if buildErrTruthy r.1 then
      pre ++ [.unlock, .callback (r.1.map CbErr.build)]
    else if rescanErr.isSome then
      pre ++ [.unlock, .callback (rescanErr.map CbErr.fs)]
    else
      pre ++ [.setState rescanResults, .unlock, .callback none]

/-- C1: on every terminal path of `rebuildIfNecessary` — scan error,
no-rebuild-needed, build failure, post-build rescan — the trace ends with the
lock release immediately followed by the completion callback, and neither a
release nor a callback occurs anywhere earlier: the lock is released before
`done` is invoked, and `done` is invoked exactly once per invocation. -/
theorem rebuildIfNecessary_unlock_once_before_callback
    (disk_state scanResults rescanResults : List Entry)
    (scanErr rescanErr : Option String)
    (command : Option String) (proc : ProcBehavior) :
    ∃ pre err,
      rebuildIfNecessary disk_state scanErr scanResults command proc rescanErr rescanResults
        = pre ++ [REvent.unlock, REvent.callback err] ∧
      REvent.unlock ∉ pre ∧ (∀ e, REvent.callback e ∉ pre) := by
  by_cases h1 : (scanErr.isSome || equalsState scanResults disk_state) = true
  · refine ⟨[], scanErr.map CbErr.fs, ?_, by simp, fun e => by simp⟩
    simp [rebuildIfNecessary, h1]
  · have h1' := Bool.eq_false_iff.mpr h1
    by_cases hsp : (rebuild command proc).2 = true
    · by_cases h2 : buildErrTruthy (rebuild command proc).1 = true
      · refine ⟨[REvent.spawn], (rebuild command proc).1.map CbErr.build, ?_, by simp,
          fun e => by simp⟩
        simp [rebuildIfNecessary, h1', h2, hsp]
      · have h2' := Bool.eq_false_iff.mpr h2
        by_cases h3 : rescanErr.isSome = true
        · refine ⟨[REvent.spawn], rescanErr.map CbErr.fs, ?_, by simp, fun e => by simp⟩
          simp [rebuildIfNecessary, h1', h2', h3, hsp]
        · have h3' := Bool.eq_false_iff.mpr h3
          refine ⟨[REvent.spawn, REvent.setState rescanResults], none, ?_, by simp,
            fun e => by simp⟩
          simp [rebuildIfNecessary, h1', h2', h3', hsp]
    · have hsp' := Bool.eq_false_iff.mpr hsp
      by_cases h2 : buildErrTruthy (rebuild command proc).1 = true
      · refine ⟨[], (rebuild command proc).1.map CbErr.build, ?_, by simp, fun e => by simp⟩
        simp [rebuildIfNecessary, h1', h2, hsp']
      · have h2' := Bool.eq_false_iff.mpr h2
        by_cases h3 : rescanErr.isSome = true
        · refine ⟨[], rescanErr.map CbErr.fs, ?_, by simp, fun e => by simp⟩
          simp [rebuildIfNecessary, h1', h2', h3, hsp']
        · have h3' := Bool.eq_false_iff.mpr h3
          refine ⟨[REvent.setState rescanResults], none, ?_, by simp, fun e => by simp⟩
          simp [rebuildIfNecessary, h1', h2', h3', hsp']

/-- C2: the claim "a failed build leaves the cached baseline unchanged and the
callback receives a non-null error" FAILS on the code: a build command exiting
with code 1 and no output (for example the command `false`) makes `rebuild`
pass the empty output string as the error; the coordinator's `if (err)` is
false for `""`, so it rescans, REPLACES `disk_state`, and reports success. -/
theorem failed_build_replaces_baseline :
    rebuildIfNecessary [] none [Entry.mk (str "a") 1] (some "false")
        (ProcBehavior.exited (some 1) none "") none [Entry.mk (str "a") 1]
      = [REvent.spawn, REvent.setState [Entry.mk (str "a") 1],
         REvent.unlock, REvent.callback none] := by
  decide

/-- C10: whenever a rebuild is triggered and the build command exits failing
(non-zero code or signal) having produced no stdout/stderr output, `rebuild`
passes the empty string as its error value; the coordinator treats it as no
error, rescans, replaces the cached baseline on rescan success, and invokes the
done callback with a success (falsy) value despite the failed build. -/
theorem empty_output_build_failure_reports_success
    (disk_state scanResults rescanResults : List Entry)
    (command : Option String) (code : Option Int) (sg : Option String)
    (hscan : equalsState scanResults disk_state = false)
    (hcmd : cmdTruthy command = true)
    (hfail : (codeTruthy code || sigTruthy sg) = true) :
    (rebuild command (ProcBehavior.exited code sg "")).1 = some (BuildErr.output "") ∧
    rebuildIfNecessary disk_state none scanResults command
        (ProcBehavior.exited code sg "") none rescanResults
      = [REvent.spawn, REvent.setState rescanResults,
         REvent.unlock, REvent.callback none] := by
  have hb : rebuild command (ProcBehavior.exited code sg "")
      = (some (BuildErr.output ""), true) := by
    unfold rebuild
    rw [if_neg (by simp [hcmd])]
    dsimp only
    rw [if_pos hfail]
  refine ⟨by rw [hb], ?_⟩
  simp [rebuildIfNecessary, hscan, hb, buildErrTruthy]

/-- C10 witness: a concrete silent failing exit. -/
theorem empty_output_build_failure_reports_success_witness :
    (rebuild (some "npm run build") (ProcBehavior.exited (some 2) none "")).1
        = some (BuildErr.output "") ∧
    rebuildIfNecessary [] none [Entry.mk (str "b") 2] (some "npm run build")
        (ProcBehavior.exited (some 2) none "") none [Entry.mk (str "b") 2]
      = [REvent.spawn, REvent.setState [Entry.mk (str "b") 2],
         REvent.unlock, REvent.callback none] :=
  empty_output_build_failure_reports_success [] [Entry.mk (str "b") 2]
    [Entry.mk (str "b") 2] (some "npm run build") (some 2) none
    (by decide) (by decide) (by decide)

/-- The failure condition exactly as the specification states it: an error
occurred starting/running the process, the process exited with a non-zero
code, or the process was terminated by a signal. -/
def specFailure : ProcBehavior → Prop
  | .errorFirst _ _ => True
  | .exited code sg _ => codeTruthy code = true ∨ sg.isSome = true

/-- C4: with a configured command, and under Node's guarantee that a delivered
signal is `null` or a nonempty signal name, `rebuild` invokes its callback with
an error value exactly when the spec's failure condition holds (otherwise it
reports success), and on a failing exit the error detail passed is the
combined stdout/stderr output. -/
theorem rebuild_outcome_classification (command : Option String) (proc : ProcBehavior)
    (hcmd : cmdTruthy command = true)
    (hsig : ∀ code sg out, proc = ProcBehavior.exited code sg out → sg ≠ some "") :
    ((rebuild command proc).1.isSome = true ↔ specFailure proc) ∧
    (∀ code sg out, proc = ProcBehavior.exited code sg out → specFailure proc →
      (rebuild command proc).1 = some (BuildErr.output out)) := by
  have hcmd' : ¬ cmdTruthy command = false := by simp [hcmd]
  cases proc with
  | errorFirst e o =>
    refine ⟨?_, fun code sg out h => by cases h⟩
    unfold rebuild specFailure
    rw [if_neg hcmd']
    simp
  | exited code sg out =>
    have hsg : sigTruthy sg = sg.isSome := by
      cases sg with
      | none => rfl
      | some s =>
        have hs : s ≠ "" := by
          intro hempty
          exact hsig code (some s) out rfl (by rw [hempty])
        simp [sigTruthy, hs]
    have hr : rebuild command (ProcBehavior.exited code sg out)
        = if (codeTruthy code || sigTruthy sg) = true
          then (some (BuildErr.output out), true)
          else ((none : Option BuildErr), true) := by
      unfold rebuild
      rw [if_neg hcmd']
    constructor
    · rw [hr]
      simp only [specFailure]
      by_cases hc : (codeTruthy code || sigTruthy sg) = true
      · rw [if_pos hc]
        rcases Bool.or_eq_true_iff.mp hc with hcc | hcs
        · exact iff_of_true (by simp) (Or.inl hcc)
        · exact iff_of_true (by simp) (Or.inr (hsg ▸ hcs))
      · rw [if_neg hc]
        have hc' := Bool.eq_false_iff.mpr hc
        rcases Bool.or_eq_false_iff.mp hc' with ⟨hcc, hcs⟩
        refine iff_of_false (by simp) ?_
        rintro (hbad | hbad)
        · rw [hbad] at hcc
          cases hcc
        · rw [hsg] at hcs
          rw [hbad] at hcs
          cases hcs
    · intro code2 sg2 out2 heq hfail
      injection heq with e1 e2 e3
      subst e1
      subst e2
      subst e3
      simp only [specFailure] at hfail
      rw [hr]
      have hc : (codeTruthy code || sigTruthy sg) = true := by
        rcases hfail with hcc | hcs
        · rw [Bool.or_eq_true_iff]
          exact Or.inl hcc
        · rw [Bool.or_eq_true_iff]
          right
          rw [hsg]
          exact hcs
      rw [if_pos hc]

/-- C4 witness: a concrete failing exit with output. -/
theorem rebuild_outcome_classification_witness :
    (rebuild (some "make") (ProcBehavior.exited (some 1) none "boom")).1
      = some (BuildErr.output "boom") :=
  (rebuild_outcome_classification (some "make") (ProcBehavior.exited (some 1) none "boom")
      (by decide)
      (fun code sg out h => by cases h; simp)).2
    (some 1) none "boom" rfl (Or.inl (by decide))

/-- C9 counterexample: with no build command configured, an invocation whose
scan SUCCEEDS can still deliver a non-null error to `done`: when the scan sees
a change, the (no-op) build is followed by a rescan, and a rescan failure is
reported — refuting "succeeds whenever the scan succeeds" as stated. -/
theorem no_command_rescan_error_counterexample :
    rebuildIfNecessary [] none [Entry.mk (str "a") 1] none
        (ProcBehavior.exited none none "") (some "EIO") []
      = [REvent.unlock, REvent.callback (some (CbErr.fs "EIO"))] ∧
    REvent.callback none ∉
      rebuildIfNecessary [] none [Entry.mk (str "a") 1] none
        (ProcBehavior.exited none none "") (some "EIO") [] := by
  decide

/-- C9 (amended): if the build command is absent or empty the build step
succeeds immediately without spawning, no trace of `rebuildIfNecessary`
contains a spawn, and the invocation reports success whenever the scan — and,
when a rebuild cycle was entered, the post-build rescan — succeeds. -/
theorem no_command_never_spawns
    (disk_state scanResults rescanResults : List Entry)
    (scanErr rescanErr : Option String)
    (command : Option String) (proc : ProcBehavior)
    (hcmd : cmdTruthy command = false) :
    rebuild command proc = (none, false) ∧
    REvent.spawn ∉
      rebuildIfNecessary disk_state scanErr scanResults command proc rescanErr rescanResults ∧
    (scanErr = none → rescanErr = none →
      (equalsState scanResults disk_state = true →
        rebuildIfNecessary disk_state scanErr scanResults command proc rescanErr rescanResults
          = [REvent.unlock, REvent.callback none]) ∧
      (equalsState scanResults disk_state = false →
        rebuildIfNecessary disk_state scanErr scanResults command proc rescanErr rescanResults
          = [REvent.setState rescanResults, REvent.unlock, REvent.callback none])) := by
  have hb : rebuild command proc = (none, false) := by
    unfold rebuild
    rw [if_pos hcmd]
  refine ⟨hb, ?_, ?_⟩
  · by_cases h1 : (scanErr.isSome || equalsState scanResults disk_state) = true
    · simp [rebuildIfNecessary, h1]
    · have h1' := Bool.eq_false_iff.mpr h1
      by_cases h3 : rescanErr.isSome = true
      · simp [rebuildIfNecessary, h1', hb, h3, buildErrTruthy]
      · have h3' := Bool.eq_false_iff.mpr h3
        simp [rebuildIfNecessary, h1', hb, h3', buildErrTruthy]
  · intro hse hre
    subst hse
    subst hre
    constructor
    · intro heq
      simp [rebuildIfNecessary, heq]
    · intro hne
      simp [rebuildIfNecessary, hne, hb, buildErrTruthy]

/-- C9 witness: the empty command spawns nothing and a clean no-change run
reports success. -/
theorem no_command_never_spawns_witness :
    rebuild none (ProcBehavior.exited none none "") = (none, false) ∧
    rebuildIfNecessary [] none [] none (ProcBehavior.exited none none "") none []
      = [REvent.unlock, REvent.callback none] := by
  have h := no_command_never_spawns [] [] [] none none none
    (ProcBehavior.exited none none "") (by decide)
  exact ⟨h.1, (h.2.2 rfl rfl).1 (by decide)⟩


/-- C8 witness: a concrete instantiation of symmetry and reflexivity. -/
theorem equalsState_symm_refl_witness :
    equalsState [Entry.mk (str "a") 1] [] = equalsState [] [Entry.mk (str "a") 1] ∧
    equalsState [Entry.mk (str "a") 1] [Entry.mk (str "a") 1] = true :=
  equalsState_symm_refl [Entry.mk (str "a") 1] []

/-- C1 witness: a concrete no-change invocation. -/
theorem rebuildIfNecessary_unlock_once_before_callback_witness :
    ∃ pre err,
      rebuildIfNecessary [] none [] none (ProcBehavior.exited none none "") none []
        = pre ++ [REvent.unlock, REvent.callback err] ∧
      REvent.unlock ∉ pre ∧ (∀ e, REvent.callback e ∉ pre) :=
  rebuildIfNecessary_unlock_once_before_callback [] [] [] none none none
    (ProcBehavior.exited none none "")

end Serviette
